import Mathlib

/-!
Verification development for the django-etc utility repository.

The development shallowly embeds the two source modules:
  * `etc/toolbox.py` — choice-list helpers, bulk widget-attribute
    application, and dotted-path model-class resolution;
  * `etc/templatetags/gravatar.py` — Gravatar URL / HTML tag generation.

Python dictionaries are embedded as association lists in insertion order
(`dictInsert` models `d[k] = v`, `dictGet` models `d[k]` lookup).  External
collaborators that the code calls but whose code is not part of the
repository (the model registry, the widget `build_attrs` merge method, the
MD5 hash and URL encoding of the standard library) are embedded from their
documented contracts.
-/

set_option autoImplicit false

universe u v

/-- Python `d[k] = v` on an insertion-ordered dictionary represented as an
association list: an existing key keeps its slot and has its value replaced,
a fresh key is appended at the end. -/
def dictInsert {α : Type u} {β : Type v} [DecidableEq α]
    (d : List (α × β)) (k : α) (v : β) : List (α × β) :=
  if d.any (fun p => p.1 = k) then
    d.map (fun p => if p.1 = k then (k, v) else p)
  else
    d ++ [(k, v)]

/-- Python `d.get(k)`: the value at the first entry whose key is `k`. -/
def dictGet {α : Type u} {β : Type v} [DecidableEq α]
    (d : List (α × β)) (k : α) : Option β :=
  match d with
  | [] => none
  | p :: rest => if p.1 = k then some p.2 else dictGet rest k

/-- `etc.toolbox.choices_list`: builds an `OrderedDict` from the given
`(key, label)` pairs, inserting them in the given order. -/
def choices_list {α : Type u} {β : Type v} [DecidableEq α]
    (choices : List (α × β)) : List (α × β) :=
  choices.foldl (fun d p => dictInsert d p.1 p.2) []

/-- `etc.toolbox.get_choices`: `tuple((key, val) for key, val in choices_list.items())`,
i.e. the ordered dictionary's entries in iteration order. -/
def get_choices {α : Type u} {β : Type v} (cl : List (α × β)) : List (α × β) :=
  cl.map (fun p => (p.1, p.2))

/-- A model class, identified by its name, as handed out by the registry. -/
structure Model where
  name : String
deriving DecidableEq

/-- Outcome of `django.apps.apps.get_model(app, model)`: the registry either
returns a model class, returns `None`, or raises `LookupError` / `ValueError`.
Modelled from the spec's collaborator contract for the model registry, since
Django itself is not part of the repository. -/
inductive RegResult where
  | found (m : Model)
  | notFound
  | lookupError
  | valueError
deriving DecidableEq

/-- Whether the registry call produced a model. -/
def RegResult.isFound : RegResult → Bool
  | .found _ => true
  | _ => false

/-- The host framework's model registry: app label and model name in,
`RegResult` out. -/
def Registry : Type := String → String → RegResult

/-- The Python exceptions that the toolbox resolution functions can surface:
`django.core.exceptions.ImproperlyConfigured` (the spec's
`ConfigurationError`) and `AttributeError` from a failed `getattr`. -/
inductive PyErr where
  | improperlyConfigured (msg : String)
  | attributeError (name : String)
deriving DecidableEq

/-- Whether a result is an `ImproperlyConfigured` error. -/
def isConfigError : Except PyErr Model → Bool
  | .error (.improperlyConfigured _) => true
  | _ => false

/-- Python `s.split('.')` on the underlying character list: cut at every
`'.'`; an input with no dot yields one part, and empty parts are kept. -/
def splitDotAux : List Char → List Char → List (List Char)
  | [], acc => [acc.reverse]
  | c :: rest, acc =>
    if c = '.' then acc.reverse :: splitDotAux rest [] else splitDotAux rest (c :: acc)

/-- Python `model_path.split('.')`. -/
def pySplitDot (s : String) : List String :=
  (splitDotAux s.data []).map String.mk

/-- The message of the `ImproperlyConfigured` raised for a malformed path. -/
def badFormatMsg (model_path : String) : String :=
  "`" ++ model_path ++ "` must have the following format: `app_name.model_name`."

/-- The message of the `ImproperlyConfigured` raised when the registry does
not yield a model. -/
def notInstalledMsg (model_path model_name : String) : String :=
  "`" ++ model_path ++ "` refers to a model `" ++ model_name ++ "` that has not been installed."

/-- Whether a path splits into exactly two non-empty dot-separated parts
(the well-formedness condition of the spec). -/
def twoNonemptyParts (path : String) : Bool :=
  match pySplitDot path with
  | [a, m] => a ≠ "" && m ≠ ""
  | _ => false

/-- `etc.toolbox.get_model_class_from_string`, parameterised by the registry:
split the path on dots into exactly `app_name, model_name` (a mismatched
unpacking raises `ValueError`, caught and turned into `ImproperlyConfigured`),
query the registry (a `LookupError` / `ValueError` there is caught and leaves
`model = None`), and raise `ImproperlyConfigured` when no model resulted. -/
def get_model_class_from_string (reg : Registry) (model_path : String) :
    Except PyErr Model :=
  match pySplitDot model_path with
  | [app_name, model_name] =>
    let model : Option Model :=
      match reg app_name model_name with
      | .found m => some m
      | .notFound => none
      | .lookupError => none
      | .valueError => none
    match model with
    | some m => .ok m
    | none => .error (.improperlyConfigured (notInstalledMsg model_path model_name))
  | _ => .error (.improperlyConfigured (badFormatMsg model_path))

/-- A settings-like namespace object: `getattr` yields the attribute's value
when present and `none` when absent. -/
def SettingsModule : Type := String → Option String

/-- A form field's widget, carrying its HTML attribute dictionary (HTML
attribute values are strings). -/
structure Widget where
  attrs : List (String × String)
deriving DecidableEq

/-- A form field: its name and its widget. -/
structure FormField where
  name : String
  widget : Widget
deriving DecidableEq

/-- A form-like object: `form.fields` is a mapping from field name to field. -/
structure Form where
  fields : List (String × FormField)
deriving DecidableEq

/-- A value in the `attrs` mapping handed to `set_form_widgets_attrs`: either
a literal attribute value or a callable computing the value from the field
(`hasattr(val, '__call__')` distinguishes the two). -/
inductive AttrVal where
  | lit (v : String)
  | fn (f : FormField → String)

/-- The value an `attrs` entry contributes for a given field: a literal is
used as-is, a callable is invoked with the field as its sole argument. -/
def resolveAttr (field : FormField) : AttrVal → String
  | .lit v => v
  | .fn f => f field

/-- `Widget.build_attrs(extra_attrs)` of the host framework: a copy of the
widget's own attribute dictionary updated with the extra attributes.
Modelled from the spec's collaborator contract ("a method to merge new
attributes into existing ones"), since the widget class is not part of the
repository. -/
def build_attrs (w : Widget) (extra : List (String × String)) : List (String × String) :=
  extra.foldl (fun d p => dictInsert d p.1 p.2) w.attrs

/-- The `attrs_` dictionary the loop body of `set_form_widgets_attrs` builds
for one field: `attrs_ = dict(attrs)` (a fresh copy), then
`attrs_[name] = val(field)` for every callable entry of `attrs`.  An
overwrite at an existing key keeps that entry's slot, so on a dictionary
(whose keys are distinct, as in every Python dict) the loop resolves the
copied entries in place: a literal entry keeps its value and each callable
entry is replaced by its result at the field. -/
def computedAttrs (attrs : List (String × AttrVal)) (field : FormField) :
    List (String × String) :=
  attrs.map (fun p => (p.1, resolveAttr field p.2))

/-- The body of `set_form_widgets_attrs` for one field: it reads the caller's
`attrs` (never writing it), and assigns `field.widget.attrs =
field.widget.build_attrs(attrs_)`.  Returns the caller's `attrs` binding
after the body together with the field's new widget. -/
def processField (attrs : List (String × AttrVal)) (field : FormField) :
    List (String × AttrVal) × Widget :=
  (attrs, ⟨build_attrs field.widget (computedAttrs attrs field)⟩)

/-- One iteration of the `for _, field in form.fields.items()` loop: the
state carries the fields processed so far and the caller's `attrs` binding,
which the body reads and hands on. -/
def sfwaStep (st : List (String × FormField) × List (String × AttrVal))
    (p : String × FormField) :
    List (String × FormField) × List (String × AttrVal) :=
  let (a, w) := processField st.2 p.2
  (st.1 ++ [(p.1, { p.2 with widget := w })], a)

/-- `etc.toolbox.set_form_widgets_attrs`: applies the given HTML attributes
to each field widget of the given form.  The embedding returns the mutated
form together with the caller's `attrs` binding after the call, threading it
through every loop iteration. -/
def set_form_widgets_attrs (form : Form) (attrs : List (String × AttrVal)) :
    Form × List (String × AttrVal) :=
  let r := form.fields.foldl sfwaStep ([], attrs)
  (⟨r.1⟩, r.2)

/-- `etc.toolbox.get_model_class_from_settings`:
`get_model_class_from_string(getattr(settings_module, settings_entry_name))`;
`getattr` has no default, so a missing attribute raises `AttributeError`. -/
def get_model_class_from_settings (reg : Registry) (settings_module : SettingsModule)
    (settings_entry_name : String) : Except PyErr Model :=
  match settings_module settings_entry_name with
  | none => .error (.attributeError settings_entry_name)
  | some path => get_model_class_from_string reg path

/-! ### Gravatar: MD5, URL encoding, and the template tags

`hashlib.md5` and `urllib.parse` are Python standard-library collaborators,
not code of the repository; they are embedded here from their documented
behaviour (RFC 1321 MD5, standard URL query percent-encoding). -/

/-- Truncation to a 32-bit word. -/
def w32 (n : Nat) : Nat := n % 4294967296

/-- 32-bit modular addition. -/
def wadd (a b : Nat) : Nat := w32 (a + b)

/-- 32-bit bitwise complement (for arguments below `2 ^ 32`). -/
def wnot (a : Nat) : Nat := a ^^^ 4294967295

/-- 32-bit left rotation. -/
def rotl (x s : Nat) : Nat := ((x <<< s) ||| (x >>> (32 - s))) % 4294967296

/-- The MD5 round constants `T[1..64]` of RFC 1321. -/
def md5K : List Nat :=
  [0xd76aa478, 0xe8c7b756, 0x242070db, 0xc1bdceee,
   0xf57c0faf, 0x4787c62a, 0xa8304613, 0xfd469501,
   0x698098d8, 0x8b44f7af, 0xffff5bb1, 0x895cd7be,
   0x6b901122, 0xfd987193, 0xa679438e, 0x49b40821,
   0xf61e2562, 0xc040b340, 0x265e5a51, 0xe9b6c7aa,
   0xd62f105d, 0x02441453, 0xd8a1e681, 0xe7d3fbc8,
   0x21e1cde6, 0xc33707d6, 0xf4d50d87, 0x455a14ed,
   0xa9e3e905, 0xfcefa3f8, 0x676f02d9, 0x8d2a4c8a,
   0xfffa3942, 0x8771f681, 0x6d9d6122, 0xfde5380c,
   0xa4beea44, 0x4bdecfa9, 0xf6bb4b60, 0xbebfbc70,
   0x289b7ec6, 0xeaa127fa, 0xd4ef3085, 0x04881d05,
   0xd9d4d039, 0xe6db99e5, 0x1fa27cf8, 0xc4ac5665,
   0xf4292244, 0x432aff97, 0xab9423a7, 0xfc93a039,
   0x655b59c3, 0x8f0ccc92, 0xffeff47d, 0x85845dd1,
   0x6fa87e4f, 0xfe2ce6e0, 0xa3014314, 0x4e0811a1,
   0xf7537e82, 0xbd3af235, 0x2ad7d2bb, 0xeb86d391]

/-- The MD5 per-round left-rotation amounts. -/
def md5S : List Nat :=
  [7, 12, 17, 22, 7, 12, 17, 22, 7, 12, 17, 22, 7, 12, 17, 22,
   5, 9, 14, 20, 5, 9, 14, 20, 5, 9, 14, 20, 5, 9, 14, 20,
   4, 11, 16, 23, 4, 11, 16, 23, 4, 11, 16, 23, 4, 11, 16, 23,
   6, 10, 15, 21, 6, 10, 15, 21, 6, 10, 15, 21, 6, 10, 15, 21]

/-- The MD5 nonlinear function for round `i` applied to `(b, c, d)`. -/
def md5F (i b c d : Nat) : Nat :=
  if i < 16 then (b &&& c) ||| (wnot b &&& d)
  else if i < 32 then (d &&& b) ||| (wnot d &&& c)
  else if i < 48 then b ^^^ c ^^^ d
  else c ^^^ (b ||| wnot d)

/-- The message-word index used by MD5 round `i`. -/
def md5G (i : Nat) : Nat :=
  if i < 16 then i
  else if i < 32 then (5 * i + 1) % 16
  else if i < 48 then (3 * i + 5) % 16
  else (7 * i) % 16

/-- Little-endian 32-bit word `j` of a 64-byte block. -/
def leWord (block : List Nat) (j : Nat) : Nat :=
  block.getD (4 * j) 0 + 256 * block.getD (4 * j + 1) 0 +
    65536 * block.getD (4 * j + 2) 0 + 16777216 * block.getD (4 * j + 3) 0

/-- One MD5 round: state `(a, b, c, d)` and round index `i`. -/
def md5Step (block : List Nat) (st : Nat × Nat × Nat × Nat) (i : Nat) :
    Nat × Nat × Nat × Nat :=
  let (a, b, c, d) := st
  let tmp := wadd (wadd (wadd a (md5F i b c d)) (md5K.getD i 0)) (leWord block (md5G i))
  (d, wadd b (rotl tmp (md5S.getD i 0)), b, c)

/-- Process one 64-byte block: 64 rounds, then add the block result to the
incoming state. -/
def md5Block (st : Nat × Nat × Nat × Nat) (block : List Nat) :
    Nat × Nat × Nat × Nat :=
  let r := (List.range 64).foldl (md5Step block) st
  (wadd st.1 r.1, wadd st.2.1 r.2.1, wadd st.2.2.1 r.2.2.1, wadd st.2.2.2 r.2.2.2)

/-- Split a byte list into consecutive 64-byte chunks. -/
def chunks64 : List Nat → List (List Nat)
  | [] => []
  | a :: rest => (a :: rest).take 64 :: chunks64 ((a :: rest).drop 64)
termination_by l => l.length
decreasing_by
  simp only [List.length_drop, List.length_cons]
  omega

/-- The `k` least-significant bytes of `n`, little-endian. -/
def leBytes : Nat → Nat → List Nat
  | 0, _ => []
  | k + 1, n => n % 256 :: leBytes k (n / 256)

/-- RFC 1321 padding: append `0x80`, zero bytes up to 56 mod 64, then the
bit length as a little-endian 64-bit quantity. -/
def md5Pad (msg : List Nat) : List Nat :=
  msg ++ [0x80] ++ List.replicate ((120 - (msg.length + 1) % 64) % 64) 0 ++
    leBytes 8 (8 * msg.length)

/-- The 16-byte MD5 digest of a byte sequence. -/
def md5Bytes (msg : List Nat) : List Nat :=
  let st := (chunks64 (md5Pad msg)).foldl md5Block
    (0x67452301, 0xefcdab89, 0x98badcfe, 0x10325476)
  leBytes 4 st.1 ++ leBytes 4 st.2.1 ++ leBytes 4 st.2.2.1 ++ leBytes 4 st.2.2.2

/-- The lower-case hexadecimal digit for a value below 16. -/
def hexDigit (n : Nat) : Char :=
  "0123456789abcdef".data.getD n '0'

/-- The upper-case hexadecimal digit for a value below 16 (Python's
percent-encoding uses upper-case hex). -/
def hexDigitUpper (n : Nat) : Char :=
  "0123456789ABCDEF".data.getD n '0'

/-- The two lower-case hex characters of one byte. -/
def byteHex (b : Nat) : List Char :=
  [hexDigit (b / 16), hexDigit (b % 16)]

/-- The UTF-8 encoding of one character, as bytes. -/
def utf8Bytes (c : Char) : List Nat :=
  let n := c.toNat
  if n < 128 then [n]
  else if n < 2048 then [192 ||| (n >>> 6), 128 ||| (n &&& 63)]
  else if n < 65536 then
    [224 ||| (n >>> 12), 128 ||| ((n >>> 6) &&& 63), 128 ||| (n &&& 63)]
  else
    [240 ||| (n >>> 18), 128 ||| ((n >>> 12) &&& 63),
     128 ||| ((n >>> 6) &&& 63), 128 ||| (n &&& 63)]

/-- Python `s.encode()`: the UTF-8 bytes of a string. -/
def strBytes (s : String) : List Nat :=
  s.data.flatMap utf8Bytes

/-- `hashlib.md5(s.encode()).hexdigest()`: the 32-character lower-case
hexadecimal MD5 digest of the string's byte encoding. -/
def md5hex (s : String) : String :=
  String.mk ((md5Bytes (strBytes s)).flatMap byteHex)

/-- Whether every character of a string is a lower-case hexadecimal digit. -/
def isLowerHex (s : String) : Bool :=
  s.data.all (fun c => decide (c ∈ "0123456789abcdef".data))

/-- `urllib.parse.quote_plus` on one byte: letters, digits and `_.-~` stand
for themselves, a space becomes `+`, every other byte becomes `%XX` with
upper-case hex. -/
def quoteByte (b : Nat) : List Char :=
  if (48 ≤ b ∧ b ≤ 57) ∨ (65 ≤ b ∧ b ≤ 90) ∨ (97 ≤ b ∧ b ≤ 122) ∨
      b = 95 ∨ b = 46 ∨ b = 45 ∨ b = 126 then
    [Char.ofNat b]
  else if b = 32 then ['+']
  else ['%', hexDigitUpper (b / 16), hexDigitUpper (b % 16)]

/-- `urllib.parse.quote_plus` on a string (via its UTF-8 bytes). -/
def quote_plus (s : String) : String :=
  String.mk ((strBytes s).flatMap quoteByte)

/-- `urllib.parse.urlencode` on an ordered parameter mapping:
`key=value` pairs, each side quoted, joined with `&`. -/
def urlencode (params : List (String × String)) : String :=
  String.intercalate "&" (params.map (fun p => quote_plus p.1 ++ "=" ++ quote_plus p.2))

/-- A user-model instance: Django's user model exposes `email` and
`username` string attributes. -/
structure UserModel where
  email : String
  username : String
deriving DecidableEq

/-- The argument of the gravatar helpers: either an instance of the user
model (`isinstance(obj, USER_MODEL)` true), a plain string, or `None`. -/
inductive GravatarObj where
  | user (u : UserModel)
  | str (s : String)
  | pynone
deriving DecidableEq

/-- Python `a or b` on strings: `a` when truthy (non-empty), else `b`. -/
def pyOr (a b : String) : String :=
  if a = "" then b else a

/-- The `email` local of `get_gravatar_url`: `obj.email or obj.username` for
a user-model instance, the object itself otherwise (`None` stays `None`). -/
def resolveIdentity : GravatarObj → Option String
  | .user u => some (pyOr u.email u.username)
  | .str s => some s
  | .pynone => none

/-- Python `if email:` truthiness on the resolved identity. -/
def pyTruthy : Option String → Bool
  | none => false
  | some s => s ≠ ""

/-- `etc.templatetags.gravatar.get_gravatar_url`. -/
def get_gravatar_url (obj : GravatarObj) (size : Nat) (default : String) : String :=
  let email := resolveIdentity obj
  if pyTruthy email then
    "http://www.gravatar.com/avatar/" ++ md5hex (email.getD "") ++ "/?" ++
      urlencode [("size", Nat.repr size), ("d", default)]
  else ""

/-- `etc.templatetags.gravatar.gravatar_get_url` (the template tag): it
delegates to `get_gravatar_url`. -/
def gravatar_get_url (obj : GravatarObj) (size : Nat) (default : String) : String :=
  get_gravatar_url obj size default

/-- `etc.templatetags.gravatar.gravatar_get_img` (the template tag): the URL
wrapped in an `img` tag when non-empty, the empty string otherwise. -/
def gravatar_get_img (obj : GravatarObj) (size : Nat) (default : String) : String :=
  let url := get_gravatar_url obj size default
  if url ≠ "" then "<img src=\"" ++ url ++ "\" class=\"gravatar\">" else ""

/-! ### Helper lemmas -/

theorem dictInsert_of_fresh {α : Type u} {β : Type v} [DecidableEq α]
    (acc : List (α × β)) (p : α × β) (hfresh : ∀ q ∈ acc, q.1 ≠ p.1) :
    dictInsert acc p.1 p.2 = acc ++ [p] := by
  have hany : acc.any (fun q => q.1 = p.1) = false := by
    simp only [List.any_eq_false, decide_eq_true_eq]
    exact hfresh
  simp [dictInsert, hany]

theorem foldl_dictInsert_fresh {α : Type u} {β : Type v} [DecidableEq α] :
    ∀ (pairs acc : List (α × β)),
      (pairs.map Prod.fst).Nodup →
      (∀ p ∈ pairs, ∀ q ∈ acc, q.1 ≠ p.1) →
      pairs.foldl (fun d p => dictInsert d p.1 p.2) acc = acc ++ pairs
  | [], acc, _, _ => by simp
  | p :: rest, acc, hnd, hdisj => by
    have hfresh : ∀ q ∈ acc, q.1 ≠ p.1 := fun q hq => hdisj p (by simp) q hq
    have hnd2 : (p.1 :: rest.map Prod.fst).Nodup := by simpa using hnd
    have hnd' : (rest.map Prod.fst).Nodup := hnd2.of_cons
    have hnotin : p.1 ∉ rest.map Prod.fst := (List.nodup_cons.mp hnd2).1
    have hdisj' : ∀ r ∈ rest, ∀ q ∈ acc ++ [p], q.1 ≠ r.1 := by
      intro r hr q hq
      rcases List.mem_append.mp hq with hq | hq
      · exact hdisj r (by simp [hr]) q hq
      · have hqp : q = p := by simpa using hq
        subst hqp
        intro hcontra
        exact hnotin (hcontra ▸ List.mem_map_of_mem Prod.fst hr)
    calc (p :: rest).foldl (fun d q => dictInsert d q.1 q.2) acc
        = rest.foldl (fun d q => dictInsert d q.1 q.2) (dictInsert acc p.1 p.2) := rfl
      _ = rest.foldl (fun d q => dictInsert d q.1 q.2) (acc ++ [p]) := by
          rw [dictInsert_of_fresh acc p hfresh]
      _ = (acc ++ [p]) ++ rest := foldl_dictInsert_fresh rest (acc ++ [p]) hnd' hdisj'
      _ = acc ++ (p :: rest) := by simp

/-- C5: for pairwise-distinct keys, `get_choices` applied to `choices_list`
of a sequence of `(key, label)` pairs returns exactly the original sequence
in the original order. -/
theorem get_choices_choices_list_roundtrip {α : Type u} {β : Type v} [DecidableEq α]
    (pairs : List (α × β)) (hnd : (pairs.map Prod.fst).Nodup) :
    get_choices (choices_list pairs) = pairs := by
  have h := foldl_dictInsert_fresh pairs ([] : List (α × β)) hnd (by simp)
  simp [get_choices, choices_list, h]

theorem get_choices_choices_list_roundtrip_witness :
    (([(1, "One"), (2, "Two")] : List (Nat × String)).map Prod.fst).Nodup ∧
      get_choices (choices_list ([(1, "One"), (2, "Two")] : List (Nat × String))) =
        [(1, "One"), (2, "Two")] :=
  ⟨by decide, get_choices_choices_list_roundtrip _ (by decide)⟩

/-- C2: for every input string that does not split into exactly two
non-empty dot-separated parts, `get_model_class_from_string` raises
`ImproperlyConfigured` — a string with the wrong number of parts fails the
unpacking, and a string with an empty part reaches a registry that installs
no model under an empty app label or empty model name and so fails the
`model is None` check. -/
theorem get_model_class_from_string_invalid_path (reg : Registry) (path : String)
    (hreg : ∀ a m, a = "" ∨ m = "" → (reg a m).isFound = false)
    (hbad : twoNonemptyParts path = false) :
    isConfigError (get_model_class_from_string reg path) = true := by
  unfold twoNonemptyParts at hbad
  unfold get_model_class_from_string
  cases hsplit : pySplitDot path with
  | nil => simp [isConfigError]
  | cons a t =>
    cases t with
    | nil => simp [isConfigError]
    | cons m t2 =>
      cases t2 with
      | nil =>
        rw [hsplit] at hbad
        have hem : a = "" ∨ m = "" := by
          rcases Bool.and_eq_false_iff.mp hbad with hb | hb
          · exact Or.inl (by simpa using hb)
          · exact Or.inr (by simpa using hb)
        have hnf := hreg a m hem
        cases hr : reg a m with
        | found mdl => rw [hr] at hnf; simp [RegResult.isFound] at hnf
        | notFound => simp [hr, isConfigError]
        | lookupError => simp [hr, isConfigError]
        | valueError => simp [hr, isConfigError]
      | cons c t3 => simp [isConfigError]

theorem get_model_class_from_string_invalid_path_witness :
    twoNonemptyParts ".Model" = false ∧
      isConfigError (get_model_class_from_string (fun _ _ => RegResult.lookupError) ".Model") = true :=
  ⟨by decide,
   get_model_class_from_string_invalid_path (fun _ _ => RegResult.lookupError) ".Model"
     (fun _ _ _ => rfl) (by decide)⟩

/-- C4: for a path splitting into exactly the two parts `a` and `m`, the
resolver returns the registry's model when the lookup finds one, and
otherwise — the registry raising a lookup/value error or yielding no
model — it raises exactly the `ImproperlyConfigured` whose message embeds
the offending path and the model name, reporting the model as not
installed; no other error is possible for such a path. -/
theorem get_model_class_from_string_two_parts (reg : Registry) (path a m : String)
    (hsplit : pySplitDot path = [a, m]) :
    get_model_class_from_string reg path =
      (match reg a m with
       | .found mdl => Except.ok mdl
       | _ => Except.error (PyErr.improperlyConfigured (notInstalledMsg path m))) ∧
    (∃ pre post : List Char, (notInstalledMsg path m).data = pre ++ path.data ++ post) ∧
    (∃ pre post : List Char, (notInstalledMsg path m).data = pre ++ m.data ++ post) := by
  refine ⟨?_, ?_, ?_⟩
  · simp only [get_model_class_from_string, hsplit]
    cases reg a m <;> rfl
  · exact ⟨"`".data, ("` refers to a model `" ++ m ++ "` that has not been installed.").data,
      by simp [notInstalledMsg]⟩
  · exact ⟨("`" ++ path ++ "` refers to a model `").data, "` that has not been installed.".data,
      by simp [notInstalledMsg]⟩

theorem get_model_class_from_string_two_parts_witness :
    pySplitDot "app.Missing" = ["app", "Missing"] ∧
      (get_model_class_from_string (fun _ _ => RegResult.notFound) "app.Missing" =
        (match (fun _ _ => RegResult.notFound : Registry) "app" "Missing" with
         | .found mdl => Except.ok mdl
         | _ => Except.error (PyErr.improperlyConfigured (notInstalledMsg "app.Missing" "Missing"))) ∧
      (∃ pre post : List Char,
        (notInstalledMsg "app.Missing" "Missing").data = pre ++ "app.Missing".data ++ post) ∧
      (∃ pre post : List Char,
        (notInstalledMsg "app.Missing" "Missing").data = pre ++ "Missing".data ++ post)) :=
  ⟨by decide,
   get_model_class_from_string_two_parts (fun _ _ => RegResult.notFound) "app.Missing"
     "app" "Missing" (by decide)⟩

/-- C9: when the settings-like object lacks the named attribute,
`get_model_class_from_settings` fails with `AttributeError` (the `getattr`
has no default), not with `ImproperlyConfigured`. -/
theorem get_model_class_from_settings_missing_attr (reg : Registry)
    (settings : SettingsModule) (entry : String) (h : settings entry = none) :
    get_model_class_from_settings reg settings entry =
        .error (.attributeError entry) ∧
      isConfigError (get_model_class_from_settings reg settings entry) = false := by
  unfold get_model_class_from_settings
  rw [h]
  exact ⟨rfl, rfl⟩

theorem get_model_class_from_settings_missing_attr_witness :
    ((fun _ => none : SettingsModule) "MY_MODEL" = none) ∧
      (get_model_class_from_settings (fun _ _ => RegResult.lookupError)
          (fun _ => none) "MY_MODEL" = .error (.attributeError "MY_MODEL") ∧
        isConfigError (get_model_class_from_settings (fun _ _ => RegResult.lookupError)
          (fun _ => none) "MY_MODEL") = false) :=
  ⟨rfl,
   get_model_class_from_settings_missing_attr (fun _ _ => RegResult.lookupError)
     (fun _ => none) "MY_MODEL" rfl⟩

theorem set_form_widgets_attrs_unfold (form : Form) (attrs : List (String × AttrVal)) :
    set_form_widgets_attrs form attrs =
      (⟨form.fields.map (fun p =>
          (p.1, { p.2 with widget := ⟨build_attrs p.2.widget (computedAttrs attrs p.2)⟩ }))⟩,
       attrs) := by
  have haux : ∀ (l acc : List (String × FormField)),
      l.foldl sfwaStep (acc, attrs) =
      (acc ++ l.map (fun p =>
          (p.1, { p.2 with widget := ⟨build_attrs p.2.widget (computedAttrs attrs p.2)⟩ })),
       attrs) := by
    intro l
    induction l with
    | nil => intro acc; simp
    | cons p rest ih =>
      intro acc
      rw [List.foldl_cons]
      have hstep : sfwaStep (acc, attrs) p =
          (acc ++ [(p.1, { p.2 with
              widget := ⟨build_attrs p.2.widget (computedAttrs attrs p.2)⟩ })], attrs) := rfl
      rw [hstep, ih]
      simp
  unfold set_form_widgets_attrs
  rw [haux form.fields []]
  simp

/-- C10: `set_form_widgets_attrs` leaves the caller's `attrs` mapping
unchanged — the per-field dictionary is a fresh copy, so after the call
`attrs` holds exactly the entries it held before. -/
theorem set_form_widgets_attrs_preserves_attrs (form : Form)
    (attrs : List (String × AttrVal)) :
    (set_form_widgets_attrs form attrs).2 = attrs := by
  rw [set_form_widgets_attrs_unfold]

theorem dictGet_map_update_self {α : Type u} {β : Type v} [DecidableEq α]
    (d : List (α × β)) (k : α) (v : β) (h : d.any (fun p => p.1 = k) = true) :
    dictGet (d.map (fun p => if p.1 = k then (k, v) else p)) k = some v := by
  induction d with
  | nil => simp at h
  | cons p rest ih =>
    by_cases hp : p.1 = k
    · simp [dictGet, hp]
    · have h' : rest.any (fun q => q.1 = k) = true := by
        simp only [List.any_cons, Bool.or_eq_true, decide_eq_true_eq] at h
        rcases h with h | h
        · exact absurd h hp
        · exact h
      simp [dictGet, hp, ih h']

theorem dictGet_append_single_self {α : Type u} {β : Type v} [DecidableEq α]
    (d : List (α × β)) (k : α) (v : β) (h : d.any (fun p => p.1 = k) = false) :
    dictGet (d ++ [(k, v)]) k = some v := by
  induction d with
  | nil => simp [dictGet]
  | cons p rest ih =>
    simp only [List.any_cons, Bool.or_eq_false_iff, decide_eq_false_iff_not] at h
    simp [dictGet, h.1, ih h.2]

theorem dictGet_dictInsert_self {α : Type u} {β : Type v} [DecidableEq α]
    (d : List (α × β)) (k : α) (v : β) :
    dictGet (dictInsert d k v) k = some v := by
  unfold dictInsert
  by_cases h : d.any (fun p => p.1 = k) = true
  · simp only [h, if_true]
    exact dictGet_map_update_self d k v h
  · simp only [Bool.not_eq_true] at h
    simp only [h, Bool.false_eq_true, if_false]
    exact dictGet_append_single_self d k v h

theorem dictGet_map_update_ne {α : Type u} {β : Type v} [DecidableEq α]
    (d : List (α × β)) (k' k : α) (v' : β) (hne : k' ≠ k) :
    dictGet (d.map (fun p => if p.1 = k' then (k', v') else p)) k = dictGet d k := by
  induction d with
  | nil => rfl
  | cons p rest ih =>
    by_cases hp : p.1 = k'
    · have hpk : ¬p.1 = k := by rw [hp]; exact hne
      simp [dictGet, hp, hne, hpk, ih]
    · simp [dictGet, hp, ih]

theorem dictGet_append_single_ne {α : Type u} {β : Type v} [DecidableEq α]
    (d : List (α × β)) (k' k : α) (v' : β) (hne : k' ≠ k) :
    dictGet (d ++ [(k', v')]) k = dictGet d k := by
  induction d with
  | nil => simp [dictGet, hne]
  | cons p rest ih =>
    by_cases hp : p.1 = k <;> simp [dictGet, hp, ih]

theorem dictGet_dictInsert_ne {α : Type u} {β : Type v} [DecidableEq α]
    (d : List (α × β)) (k' k : α) (v' : β) (hne : k' ≠ k) :
    dictGet (dictInsert d k' v') k = dictGet d k := by
  unfold dictInsert
  by_cases h : d.any (fun p => p.1 = k') = true
  · simp only [h, if_true]
    exact dictGet_map_update_ne d k' k v' hne
  · simp only [Bool.not_eq_true] at h
    simp only [h, Bool.false_eq_true, if_false]
    exact dictGet_append_single_ne d k' k v' hne

theorem dictGet_merge_not_mem {α : Type u} {β : Type v} [DecidableEq α] :
    ∀ (extra base : List (α × β)) (k : α), k ∉ extra.map Prod.fst →
      dictGet (extra.foldl (fun d p => dictInsert d p.1 p.2) base) k = dictGet base k
  | [], _, _, _ => rfl
  | q :: rest, base, k, h => by
    have hq : q.1 ≠ k := by
      intro hc
      exact h (by rw [List.map_cons, ← hc]; exact List.mem_cons_self _ _)
    have hrest : k ∉ rest.map Prod.fst := by
      intro hc
      exact h (by rw [List.map_cons]; exact List.mem_cons_of_mem _ hc)
    calc dictGet ((q :: rest).foldl (fun d p => dictInsert d p.1 p.2) base) k
        = dictGet (rest.foldl (fun d p => dictInsert d p.1 p.2) (dictInsert base q.1 q.2)) k := rfl
      _ = dictGet (dictInsert base q.1 q.2) k := dictGet_merge_not_mem rest _ k hrest
      _ = dictGet base k := dictGet_dictInsert_ne base q.1 k q.2 hq

theorem dictGet_merge_mem {α : Type u} {β : Type v} [DecidableEq α] :
    ∀ (extra base : List (α × β)) (k : α) (v : β),
      (extra.map Prod.fst).Nodup → (k, v) ∈ extra →
      dictGet (extra.foldl (fun d p => dictInsert d p.1 p.2) base) k = some v
  | [], _, _, _, _, hmem => absurd hmem (List.not_mem_nil _)
  | q :: rest, base, k, v, hnd, hmem => by
    have hnd2 : (q.1 :: rest.map Prod.fst).Nodup := by simpa using hnd
    rcases List.mem_cons.mp hmem with hq | hrest
    · subst hq
      have hnotin : (k, v).1 ∉ rest.map Prod.fst := (List.nodup_cons.mp hnd2).1
      calc dictGet (((k, v) :: rest).foldl (fun d p => dictInsert d p.1 p.2) base) k
          = dictGet (rest.foldl (fun d p => dictInsert d p.1 p.2) (dictInsert base k v)) k := rfl
        _ = dictGet (dictInsert base k v) k := dictGet_merge_not_mem rest _ k hnotin
        _ = some v := dictGet_dictInsert_self base k v
    · exact dictGet_merge_mem rest (dictInsert base q.1 q.2) k v hnd2.of_cons hrest

theorem computedAttrs_keys (attrs : List (String × AttrVal)) (field : FormField) :
    (computedAttrs attrs field).map Prod.fst = attrs.map Prod.fst := by
  simp [computedAttrs, List.map_map, Function.comp_def]

/-- C1 counterexample: with pre-existing widget attribute `class="old"` and
applied attribute `class="x"`, the post-call widget attributes are exactly
`class="x"` — the pre-existing entry `("class", "old")` is no longer
contained, so the post-call attributes do not contain all entries the widget
had before the call. -/
theorem set_form_widgets_attrs_overridden_entry_lost :
    ("class", "old") ∈ (Widget.mk [("class", "old")]).attrs ∧
      (set_form_widgets_attrs
          (Form.mk [("t", FormField.mk "title" (Widget.mk [("class", "old")]))])
          [("class", AttrVal.lit "x")]).1.fields =
        [("t", FormField.mk "title" (Widget.mk [("class", "x")]))] ∧
      ("class", "old") ∉ (Widget.mk [("class", "x")]).attrs := by
  refine ⟨by decide, ?_, by decide⟩
  rw [set_form_widgets_attrs_unfold]
  decide

/-- C1 (amended): `set_form_widgets_attrs` merges the per-field computed
dictionary into each field's pre-existing widget attributes: after the call
each field's widget attributes hold, at every key of `attrs`, that entry's
computed value (a literal as-is, a callable's result at the field), and at
every key not in `attrs`, exactly what the widget held before; a
pre-existing entry whose key is also in `attrs` is overridden, not kept. -/
theorem set_form_widgets_attrs_merges (form : Form) (attrs : List (String × AttrVal))
    (hA : (attrs.map Prod.fst).Nodup) (p : String × FormField) (hp : p ∈ form.fields) :
    (p.1, { p.2 with widget := ⟨build_attrs p.2.widget (computedAttrs attrs p.2)⟩ })
        ∈ (set_form_widgets_attrs form attrs).1.fields ∧
      (∀ k v, (k, v) ∈ attrs →
        dictGet (build_attrs p.2.widget (computedAttrs attrs p.2)) k =
          some (resolveAttr p.2 v)) ∧
      (∀ k, k ∉ attrs.map Prod.fst →
        dictGet (build_attrs p.2.widget (computedAttrs attrs p.2)) k =
          dictGet p.2.widget.attrs k) := by
  refine ⟨?_, ?_, ?_⟩
  · rw [set_form_widgets_attrs_unfold]
    exact List.mem_map_of_mem _ hp
  · intro k v hkv
    have hnd : ((computedAttrs attrs p.2).map Prod.fst).Nodup := by
      rw [computedAttrs_keys]; exact hA
    have hmem : (k, resolveAttr p.2 v) ∈ computedAttrs attrs p.2 :=
      List.mem_map_of_mem _ hkv
    exact dictGet_merge_mem (computedAttrs attrs p.2) p.2.widget.attrs k
      (resolveAttr p.2 v) hnd hmem
  · intro k hk
    have hk' : k ∉ (computedAttrs attrs p.2).map Prod.fst := by
      rw [computedAttrs_keys]; exact hk
    exact dictGet_merge_not_mem (computedAttrs attrs p.2) p.2.widget.attrs k hk'

theorem set_form_widgets_attrs_merges_witness :
    (([("class", AttrVal.lit "x"),
       ("data-n", AttrVal.fn (fun f => f.name))].map Prod.fst).Nodup) ∧
      (("t", FormField.mk "title" (Widget.mk [("data-old", "1")])) ∈
        (Form.mk [("t", FormField.mk "title" (Widget.mk [("data-old", "1")]))]).fields) ∧
      ((("t", FormField.mk "title" (Widget.mk [("data-old", "1")])).1,
        { ("t", FormField.mk "title" (Widget.mk [("data-old", "1")])).2 with
          widget := ⟨build_attrs
            ("t", FormField.mk "title" (Widget.mk [("data-old", "1")])).2.widget
            (computedAttrs
              [("class", AttrVal.lit "x"), ("data-n", AttrVal.fn (fun f => f.name))]
              ("t", FormField.mk "title" (Widget.mk [("data-old", "1")])).2)⟩ })
          ∈ (set_form_widgets_attrs
              (Form.mk [("t", FormField.mk "title" (Widget.mk [("data-old", "1")]))])
              [("class", AttrVal.lit "x"),
               ("data-n", AttrVal.fn (fun f => f.name))]).1.fields ∧
        (∀ k v, (k, v) ∈
            [("class", AttrVal.lit "x"), ("data-n", AttrVal.fn (fun f => f.name))] →
          dictGet (build_attrs
              ("t", FormField.mk "title" (Widget.mk [("data-old", "1")])).2.widget
              (computedAttrs
                [("class", AttrVal.lit "x"), ("data-n", AttrVal.fn (fun f => f.name))]
                ("t", FormField.mk "title" (Widget.mk [("data-old", "1")])).2)) k =
            some (resolveAttr
              ("t", FormField.mk "title" (Widget.mk [("data-old", "1")])).2 v)) ∧
        (∀ k, k ∉
            ([("class", AttrVal.lit "x"),
              ("data-n", AttrVal.fn (fun f => f.name))].map Prod.fst) →
          dictGet (build_attrs
              ("t", FormField.mk "title" (Widget.mk [("data-old", "1")])).2.widget
              (computedAttrs
                [("class", AttrVal.lit "x"), ("data-n", AttrVal.fn (fun f => f.name))]
                ("t", FormField.mk "title" (Widget.mk [("data-old", "1")])).2)) k =
            dictGet
              ("t", FormField.mk "title" (Widget.mk [("data-old", "1")])).2.widget.attrs
              k)) :=
  ⟨by decide, by decide,
   set_form_widgets_attrs_merges
     (Form.mk [("t", FormField.mk "title" (Widget.mk [("data-old", "1")]))])
     [("class", AttrVal.lit "x"), ("data-n", AttrVal.fn (fun f => f.name))]
     (by decide)
     ("t", FormField.mk "title" (Widget.mk [("data-old", "1")]))
     (by decide)⟩

theorem leBytes_length : ∀ (k n : Nat), (leBytes k n).length = k
  | 0, _ => rfl
  | k + 1, n => by simp [leBytes, leBytes_length k]

theorem md5Bytes_length (msg : List Nat) : (md5Bytes msg).length = 16 := by
  unfold md5Bytes
  simp [leBytes_length]

theorem length_flatMap_byteHex : ∀ (l : List Nat), (l.flatMap byteHex).length = 2 * l.length
  | [] => rfl
  | b :: rest => by
    simp only [List.flatMap_cons, List.length_append, length_flatMap_byteHex rest,
      byteHex, List.length_cons, List.length_nil, List.length_cons]
    omega

theorem md5hex_length (s : String) : (md5hex s).length = 32 := by
  unfold md5hex
  show ((md5Bytes (strBytes s)).flatMap byteHex).length = 32
  rw [length_flatMap_byteHex, md5Bytes_length]

theorem hexDigit_mem_charset (n : Nat) : hexDigit n ∈ "0123456789abcdef".data := by
  unfold hexDigit
  by_cases h : n < "0123456789abcdef".data.length
  · rw [List.getD_eq_getElem _ _ h]
    exact List.getElem_mem h
  · rw [List.getD_eq_default _ _ (Nat.le_of_not_lt h)]
    decide

theorem md5hex_isLowerHex (s : String) : isLowerHex (md5hex s) = true := by
  unfold isLowerHex md5hex
  rw [List.all_eq_true]
  intro c hc
  rw [decide_eq_true_eq]
  have hc' : c ∈ (md5Bytes (strBytes s)).flatMap byteHex := hc
  rcases List.mem_flatMap.mp hc' with ⟨b, _, hcb⟩
  rcases List.mem_cons.mp hcb with h1 | h1
  · exact h1 ▸ hexDigit_mem_charset (b / 16)
  · rcases List.mem_cons.mp h1 with h2 | h2
    · exact h2 ▸ hexDigit_mem_charset (b % 16)
    · exact absurd h2 (List.not_mem_nil c)

/-- C7: an empty-string identity and a `None` identity both produce the
empty string (and, the embedding being a total function, no error). -/
theorem get_gravatar_url_empty_identity (size : Nat) (d : String) :
    get_gravatar_url .pynone size d = "" ∧ get_gravatar_url (.str "") size d = "" :=
  ⟨rfl, rfl⟩

/-- C6: for a user-model instance the Gravatar identity is the `email`
attribute when non-empty and the `username` attribute otherwise, and the URL
is the same as for that identity passed as a plain string; a plain string is
used as the identity unchanged. -/
theorem get_gravatar_url_identity_resolution (u : UserModel) (s : String)
    (size : Nat) (d : String) :
    resolveIdentity (.user u) =
        some (if u.email = "" then u.username else u.email) ∧
      resolveIdentity (.str s) = some s ∧
      get_gravatar_url (.user u) size d =
        get_gravatar_url (.str (if u.email = "" then u.username else u.email)) size d :=
  ⟨rfl, rfl, rfl⟩

/-- C8: `gravatar_get_img` returns the empty string exactly when
`gravatar_get_url` does, and otherwise wraps that URL in
`<img src="<url>" class="gravatar">`. -/
theorem gravatar_get_img_wraps_url (obj : GravatarObj) (size : Nat) (d : String) :
    gravatar_get_img obj size d =
      (if gravatar_get_url obj size d = "" then ""
       else "<img src=\"" ++ gravatar_get_url obj size d ++ "\" class=\"gravatar\">") := by
  unfold gravatar_get_img gravatar_get_url
  by_cases h : get_gravatar_url obj size d = "" <;> simp [h]

/-- C3: for a non-empty string identity, the URL is exactly the Gravatar
prefix, the 32-character lower-case hexadecimal MD5 digest of the
identity's byte encoding, then `/?` and the percent-encoded query with the
`size` parameter before the `d` parameter. -/
theorem get_gravatar_url_format (s : String) (size : Nat) (d : String) (h : s ≠ "") :
    get_gravatar_url (.str s) size d =
        "http://www.gravatar.com/avatar/" ++ md5hex s ++ "/?" ++
          urlencode [("size", Nat.repr size), ("d", d)] ∧
      (md5hex s).length = 32 ∧
      isLowerHex (md5hex s) = true := by
  refine ⟨?_, md5hex_length s, md5hex_isLowerHex s⟩
  unfold get_gravatar_url
  simp [resolveIdentity, pyTruthy, h]

theorem get_gravatar_url_format_witness :
    ("a" : String) ≠ "" ∧
      (get_gravatar_url (.str "a") 65 "identicon" =
          "http://www.gravatar.com/avatar/" ++ md5hex "a" ++ "/?" ++
            urlencode [("size", Nat.repr 65), ("d", "identicon")] ∧
        (md5hex "a").length = 32 ∧
        isLowerHex (md5hex "a") = true) :=
  ⟨by decide, get_gravatar_url_format "a" 65 "identicon" (by decide)⟩
